import Mathlib

/-!
Shallow embedding of the `ipld-exp` reference-cell library
(`src/link.rs`, `src/auto_link.rs`, `src/maybe_link.rs`, `src/store.rs`).

Rust interior mutability (`Cell`, `OnceCell`) is modelled by explicit state
passing: every operation takes the cell and returns the result, the
post-state cell, and the list of backend calls it made.  A Rust `panic!`
or `expect` failure is a distinct outcome from a backend `Err`.
-/

namespace IpldExp

/-- Content address: (content-type tag, hash-function tag, digest bytes),
the data model of `cid::Cid` as consumed by this crate
(`k.codec()`, `k.hash().code()` in `src/store.rs`). -/
structure Cid where
  codec : Nat
  mh_code : Nat
  digest : List Nat
deriving DecidableEq, Repr

/-- Shape of a content address: the address minus its digest
(`CidShape` in `src/store.rs`). -/
structure CidShape where
  codec : Nat
  mh_code : Nat
deriving DecidableEq, Repr

/-- Embeds `impl From<&Cid> for CidShape` (`src/store.rs` lines 12-19). -/
def CidShape.fromCid (k : Cid) : CidShape :=
  { codec := k.codec, mh_code := k.mh_code }

/-- Backend event trace entry: one call to a `StaticStore` primitive. -/
inductive Event (T : Type) where
  | encodeEv (v : T)
  | decodeEv (b : List Nat)
  | storeBytesEv (b : List Nat) (shape : Option CidShape)
  | loadBytesEv (k : Cid)
deriving DecidableEq, Repr

/-- Number of `store_bytes` calls in an event trace. -/
def storeCallCount {T : Type} : List (Event T) → Nat
  | [] => 0
  | Event.storeBytesEv _ _ :: rest => storeCallCount rest + 1
  | _ :: rest => storeCallCount rest

/-- Outcome of a fallible Rust operation: a `panic!`/`expect` abort, a
backend `Err`, or `Ok`. -/
inductive Res (ε : Type) (α : Type) where
  | panic (msg : String)
  | err (e : ε)
  | ok (a : α)
deriving DecidableEq, Repr

/-- Whether the outcome is a Rust panic. -/
def Res.isPanic {ε α : Type} : Res ε α → Bool
  | .panic _ => true
  | _ => false

/-- Result of one cell operation: outcome, post-state cell, backend calls. -/
structure Outcome (ε α σ τ : Type) where
  res : Res ε α
  cell : σ
  events : List (Event τ)
deriving DecidableEq, Repr

/-- The `StaticStore` trait (`src/store.rs` lines 21-40): the four required
backend primitives, each fallible. -/
structure StoreModel (T : Type) (Err : Type) where
  store_bytes : List Nat → Option CidShape → Except Err Cid
  encode : T → Except Err (List Nat)
  load_bytes : Cid → Except Err (List Nat)
  decode : List Nat → Except Err T

/-- Default method `StaticStore::load` (`src/store.rs` lines 33-35):
`decode(load_bytes(key))`, with the calls traced. -/
def StoreModel.loadRun {T Err : Type} (St : StoreModel T Err) (k : Cid) :
    Except Err T × List (Event T) :=
  match St.load_bytes k with
  | .error e => (.error e, [Event.loadBytesEv k])
  | .ok bytes =>
    match St.decode bytes with
    | .error e => (.error e, [Event.loadBytesEv k, Event.decodeEv bytes])
    | .ok v => (.ok v, [Event.loadBytesEv k, Event.decodeEv bytes])

/-- Default method `StaticStore::store` (`src/store.rs` lines 37-39):
`store_bytes(encode(value), shape)`, with the calls traced. -/
def StoreModel.storeRun {T Err : Type} (St : StoreModel T Err) (v : T)
    (shape : Option CidShape) : Except Err Cid × List (Event T) :=
  match St.encode v with
  | .error e => (.error e, [Event.encodeEv v])
  | .ok bytes =>
    match St.store_bytes bytes shape with
    | .error e => (.error e, [Event.encodeEv v, Event.storeBytesEv bytes shape])
    | .ok k => (.ok k, [Event.encodeEv v, Event.storeBytesEv bytes shape])

/-- State of a `Link` (`src/link.rs` lines 46-50). -/
inductive LinkState where
  | Unmodified (k : Cid)
  | Modified (shape : Option CidShape)
deriving DecidableEq, Repr

/-- Embeds `LinkState::unwrap_unmodified` (`src/link.rs` lines 52-59);
`none` denotes the panic branch. -/
def LinkState.unwrap_unmodified : LinkState → Option Cid
  | .Unmodified k => some k
  | .Modified _ => none

/-- A `Link<T, Store>` (`src/link.rs` lines 39-44): the `OnceCell<T>` cache
slot and the `Cell<LinkState>` state. -/
structure Link (T : Type) where
  value : Option T
  state : LinkState
deriving DecidableEq, Repr

/-- Embeds `Link::new` (`src/link.rs` lines 121-128). -/
def Link.new {T : Type} (k : Cid) : Link T :=
  { value := none, state := .Unmodified k }

/-- Embeds `Link::from_value` (`src/link.rs` lines 131-138). -/
def Link.from_value {T : Type} (v : T) (shape : Option CidShape) : Link T :=
  { value := some v, state := .Modified shape }

/-- Embeds `Deserialize for Link` (`src/link.rs` lines 75-86):
`Link::new` applied to the decoded `Cid`. -/
def Link.deserializeModel {T : Type} (k : Cid) : Link T :=
  Link.new k

/-- Embeds `Link::read` (`src/link.rs` lines 142-149):
`value.get_or_try_init(|| Store::load(state.unwrap_unmodified()))`. -/
def Link.read {T Err : Type} (St : StoreModel T Err) (l : Link T) :
    Outcome Err T (Link T) T :=
  match l.value with
  | some v => ⟨.ok v, l, []⟩
  | none =>
    match l.state.unwrap_unmodified with
    | none => ⟨.panic "expected link to be unmodified", l, []⟩
    | some k =>
      match St.loadRun k with
      | (.error e, evs) => ⟨.err e, l, evs⟩
      | (.ok v, evs) => ⟨.ok v, { l with value := some v }, evs⟩

/-- Embeds `Link::edit` (`src/link.rs` lines 154-166): when `Unmodified`,
load if uncached, then transition to `Modified(Some(shape of k))`;
returns the cached value. -/
def Link.edit {T Err : Type} (St : StoreModel T Err) (l : Link T) :
    Outcome Err T (Link T) T :=
  match l.state with
  | .Unmodified k =>
    match l.value with
    | none =>
      match St.loadRun k with
      | (.error e, evs) => ⟨.err e, l, evs⟩
      | (.ok v, evs) =>
        ⟨.ok v, { value := some v, state := .Modified (some (CidShape.fromCid k)) }, evs⟩
    | some v =>
      ⟨.ok v, { l with state := .Modified (some (CidShape.fromCid k)) }, []⟩
  | .Modified _ =>
    match l.value with
    | none => ⟨.panic "expected value", l, []⟩
    | some v => ⟨.ok v, l, []⟩

/-- Embeds `Link::save` (`src/link.rs` lines 170-186): `Unmodified` returns
the address unchanged; `Modified` stores the cached value with the shape
hint and transitions to `Unmodified(new k)`. -/
def Link.save {T Err : Type} (St : StoreModel T Err) (l : Link T) :
    Outcome Err Cid (Link T) T :=
  match l.state with
  | .Unmodified k => ⟨.ok k, l, []⟩
  | .Modified shape =>
    match l.value with
    | none => ⟨.panic "modified link has no value", l, []⟩
    | some v =>
      match St.storeRun v shape with
      | (.error e, evs) => ⟨.err e, l, evs⟩
      | (.ok k, evs) => ⟨.ok k, { l with state := .Unmodified k }, evs⟩

/-- Embeds `Link::free` (`src/link.rs` lines 189-197): `save`, then drop the
cached value. -/
def Link.free {T Err : Type} (St : StoreModel T Err) (l : Link T) :
    Outcome Err Cid (Link T) T :=
  let o := Link.save St l
  match o.res with
  | .ok k => ⟨.ok k, { o.cell with value := none }, o.events⟩
  | r => ⟨r, o.cell, o.events⟩

/-- The `MaybeLink<T>` union (`src/maybe_link.rs` lines 13-16). -/
inductive MaybeLink (T : Type) where
  | Value (v : T)
  | Link (k : Cid)
deriving DecidableEq, Repr

/-- State of an `AutoLink` (`src/auto_link.rs` lines 22-27). -/
inductive InlineState where
  | Modified
  | Inlined
  | Link (k : Cid)
deriving DecidableEq, Repr

/-- Embeds `InlineState::unwrap_ref` (`src/auto_link.rs` lines 29-36);
`none` denotes the panic branch. -/
def InlineState.unwrap_ref : InlineState → Option Cid
  | .Link k => some k
  | _ => none

/-- An `AutoLink<T, Store, S>` (`src/auto_link.rs` lines 16-20); the const
generic threshold `S` (default 256) is passed to `save` explicitly. -/
structure AutoLink (T : Type) where
  value : Option T
  state : InlineState
deriving DecidableEq, Repr

/-- Embeds `AutoLink::from_cid` (`src/auto_link.rs` lines 77-83). -/
def AutoLink.from_cid {T : Type} (k : Cid) : AutoLink T :=
  { value := none, state := .Link k }

/-- Embeds `AutoLink::from_value` (`src/auto_link.rs` lines 87-93). -/
def AutoLink.from_value {T : Type} (v : T) : AutoLink T :=
  { value := some v, state := .Modified }

/-- Embeds `Deserialize for AutoLink` (`src/auto_link.rs` lines 53-67):
dispatch on a decoded `MaybeLink`. -/
def AutoLink.deserializeModel {T : Type} : MaybeLink T → AutoLink T
  | .Value v => AutoLink.from_value v
  | .Link k => AutoLink.from_cid k

/-- Embeds `AutoLink::read` (`src/auto_link.rs` lines 95-102):
`value.get_or_try_init(|| Store::load(state.unwrap_ref()))`. -/
def AutoLink.read {T Err : Type} (St : StoreModel T Err) (l : AutoLink T) :
    Outcome Err T (AutoLink T) T :=
  match l.value with
  | some v => ⟨.ok v, l, []⟩
  | none =>
    match l.state.unwrap_ref with
    | none => ⟨.panic "expected an external reference", l, []⟩
    | some k =>
      match St.loadRun k with
      | (.error e, evs) => ⟨.err e, l, evs⟩
      | (.ok v, evs) => ⟨.ok v, { l with value := some v }, evs⟩

/-- Embeds `AutoLink::edit` (`src/auto_link.rs` lines 105-117): only a
`Link` state forces a transition to `Modified`; `Modified` and `Inlined`
return the cached value with the state unchanged. -/
def AutoLink.edit {T Err : Type} (St : StoreModel T Err) (l : AutoLink T) :
    Outcome Err T (AutoLink T) T :=
  match l.state with
  | .Link k =>
    match l.value with
    | none =>
      match St.loadRun k with
      | (.error e, evs) => ⟨.err e, l, evs⟩
      | (.ok v, evs) => ⟨.ok v, { value := some v, state := .Modified }, evs⟩
    | some v => ⟨.ok v, { l with state := .Modified }, []⟩
  | _ =>
    match l.value with
    | none => ⟨.panic "expected value", l, []⟩
    | some v => ⟨.ok v, l, []⟩

/-- Embeds `AutoLink::save` (`src/auto_link.rs` lines 121-151): `Link`
returns the address, `Inlined` returns the cached value, `Modified`
encodes and compares the byte length with the threshold `S`. -/
def AutoLink.save {T Err : Type} (S : Nat) (St : StoreModel T Err)
    (l : AutoLink T) : Outcome Err (MaybeLink T) (AutoLink T) T :=
  match l.state with
  | .Link k => ⟨.ok (.Link k), l, []⟩
  | .Inlined =>
    match l.value with
    | none => ⟨.panic "modified link has no value", l, []⟩
    | some v => ⟨.ok (.Value v), l, []⟩
  | .Modified =>
    match l.value with
    | none => ⟨.panic "modified link has no value", l, []⟩
    | some v =>
      match St.encode v with
      | .error e => ⟨.err e, l, [Event.encodeEv v]⟩
      | .ok encoded =>
        if encoded.length ≤ S then
          ⟨.ok (.Value v), { l with state := .Inlined }, [Event.encodeEv v]⟩
        else
          match St.store_bytes encoded none with
          | .error e =>
            ⟨.err e, l, [Event.encodeEv v, Event.storeBytesEv encoded none]⟩
          | .ok k =>
            ⟨.ok (.Link k), { l with state := .Link k },
              [Event.encodeEv v, Event.storeBytesEv encoded none]⟩

/-- Integer widths distinguished by the serde data model
(`visit_i8` … `visit_u128` in `src/maybe_link.rs`). -/
inductive IntKind where
  | i8 | i16 | i32 | i64 | i128 | u8 | u16 | u32 | u64 | u128
deriving DecidableEq, Repr

/-- Float widths (`visit_f32`, `visit_f64`); the payload is the raw bit
pattern, which the decoder only forwards. -/
inductive FloatKind where
  | f32 | f64
deriving DecidableEq, Repr

/-- A node of a self-describing encoding, as seen by a serde
`Deserializer::deserialize_any` dispatch: one constructor per visitor
shape of `MaybeLinkVisitor` (`src/maybe_link.rs` lines 100-289). -/
inductive Node where
  | boolN (b : Bool)
  | intN (k : IntKind) (v : Int)
  | floatN (k : FloatKind) (bits : Nat)
  | charN (c : Char)
  | strN (s : String)
  | bytesN (b : List Nat)
  | noneN
  | someN (inner : Node)
  | newtypeN (inner : Node)
  | seqN (items : List Node)
  | mapN (pairs : List (Node × Node))

/-- Embeds `BytesToCidVisitor`'s expectation in `visit_newtype_struct`
(`src/maybe_link.rs` lines 266-274): `deserialize_bytes` succeeds only on a
byte-string node. -/
def deserializeBytesNode : Node → Except String (List Nat)
  | .bytesN b => .ok b
  | _ => .error "expected bytes"

/-- Embeds `MaybeLinkVisitor` / `Deserialize for MaybeLink`
(`src/maybe_link.rs` lines 100-289), parameterized by the decoder of `T`
(`decodeT`) and the `Cid` byte parser (`parseCid`, i.e. `BytesToCidVisitor`).
Each case mirrors the visitor method for that shape: primitives, sequences
and maps call `visit_value` (decode `T`, wrap in `Value`); `visit_none`
decodes `T` from the none shape; `visit_some` re-dispatches on the nested
node; `visit_newtype_struct` parses the wrapped bytes as a `Cid`. -/
def maybeLinkDecode {T : Type} (decodeT : Node → Except String T)
    (parseCid : List Nat → Except String Cid) : Node → Except String (MaybeLink T)
  | .boolN b => (decodeT (.boolN b)).map MaybeLink.Value
  | .intN k v => (decodeT (.intN k v)).map MaybeLink.Value
  | .floatN k bits => (decodeT (.floatN k bits)).map MaybeLink.Value
  | .charN c => (decodeT (.charN c)).map MaybeLink.Value
  | .strN s => (decodeT (.strN s)).map MaybeLink.Value
  | .bytesN b => (decodeT (.bytesN b)).map MaybeLink.Value
  | .noneN => (decodeT .noneN).map MaybeLink.Value
  | .someN inner => maybeLinkDecode decodeT parseCid inner
  | .newtypeN inner =>
    (deserializeBytesNode inner).bind fun b => (parseCid b).map MaybeLink.Link
  | .seqN items => (decodeT (.seqN items)).map MaybeLink.Value
  | .mapN pairs => (decodeT (.mapN pairs)).map MaybeLink.Value

/-- Strips any chain of presence markers off a node. -/
def Node.stripSome : Node → Node
  | .someN inner => Node.stripSome inner
  | n => n

/-- True for every node shape other than the presence marker and the
single-field newtype wrapper. -/
def Node.isDirect : Node → Bool
  | .someN _ => false
  | .newtypeN _ => false
  | _ => true

/-- Invariant of a `Link`: in the `Modified` state the cache slot must hold
a value (spec §3). -/
def Link.invariant {T : Type} (l : Link T) : Bool :=
  match l.state with
  | .Modified _ => l.value.isSome
  | .Unmodified _ => true

/-- Invariant of an `AutoLink`: in the `Modified` and `Inlined` states the
cache slot must hold a value (spec §3). -/
def AutoLink.invariant {T : Type} (l : AutoLink T) : Bool :=
  match l.state with
  | .Modified => l.value.isSome
  | .Inlined => l.value.isSome
  | .Link _ => true

/-- Concrete backend used for witnesses: values are their own encodings and
addresses carry the stored bytes as digest, honoring the shape hint. -/
def bytesStore : StoreModel (List Nat) String :=
  { store_bytes := fun b shape =>
      .ok { codec := (shape.map CidShape.codec).getD 0
          , mh_code := (shape.map CidShape.mh_code).getD 0
          , digest := b }
  , encode := fun v => .ok v
  , load_bytes := fun k => .ok k.digest
  , decode := fun b => .ok b }

/-- Concrete backend whose `store_bytes` and `load_bytes` always fail,
used for error-path witnesses. -/
def failStore : StoreModel (List Nat) String :=
  { store_bytes := fun _ _ => .error "store failed"
  , encode := fun v => .ok v
  , load_bytes := fun _ => .error "load failed"
  , decode := fun b => .ok b }

/-- C1: for an `AutoLink` with threshold `S` in the `Modified` state, `save`
encodes the cached value; if the encoded length is at most `S` (including
exactly `S`) it transitions to `Inlined` and returns the value inline with
no `store_bytes` call; if the length exceeds `S` it calls `store_bytes`
with no shape hint, transitions to `Link(k)`, and returns that address. -/
theorem c1_autolink_save_threshold {T Err : Type} (St : StoreModel T Err)
    (S : Nat) (l : AutoLink T) (v : T) (bytes : List Nat)
    (hstate : l.state = .Modified) (hval : l.value = some v)
    (henc : St.encode v = .ok bytes) :
    (bytes.length ≤ S →
      AutoLink.save S St l =
        ⟨.ok (.Value v), { l with state := .Inlined }, [Event.encodeEv v]⟩) ∧
    (S < bytes.length → ∀ k, St.store_bytes bytes none = .ok k →
      AutoLink.save S St l =
        ⟨.ok (.Link k), { l with state := .Link k },
          [Event.encodeEv v, Event.storeBytesEv bytes none]⟩) := by
  obtain ⟨lv, ls⟩ := l
  cases hstate
  cases hval
  constructor
  · intro hle
    simp [AutoLink.save, henc, hle]
  · intro hgt k hstore
    simp [AutoLink.save, henc, hstore, Nat.not_le.mpr hgt]

/-- Witness for C1 at both branches: threshold 2 with a 2-byte encoding
stays inline; threshold 1 with a 2-byte encoding goes out-of-line. -/
theorem c1_witness :
    (AutoLink.save 2 bytesStore ⟨some [1, 2], .Modified⟩ =
      ⟨.ok (.Value [1, 2]), ⟨some [1, 2], .Inlined⟩, [Event.encodeEv [1, 2]]⟩) ∧
    (AutoLink.save 1 bytesStore ⟨some [1, 2], .Modified⟩ =
      ⟨.ok (.Link ⟨0, 0, [1, 2]⟩), ⟨some [1, 2], .Link ⟨0, 0, [1, 2]⟩⟩,
        [Event.encodeEv [1, 2], Event.storeBytesEv [1, 2] none]⟩) :=
  ⟨(c1_autolink_save_threshold bytesStore 2 ⟨some [1, 2], .Modified⟩ [1, 2] [1, 2]
      rfl rfl rfl).1 (by decide),
   (c1_autolink_save_threshold bytesStore 1 ⟨some [1, 2], .Modified⟩ [1, 2] [1, 2]
      rfl rfl rfl).2 (by decide) ⟨0, 0, [1, 2]⟩ rfl⟩

/-- C2: `Link::save` on an `Unmodified(k)` cell returns `k` unchanged with
no backend call; and any successful `save` is idempotent — a second `save`
returns the same address with no backend calls, and the two saves together
make at most one `store_bytes` call. -/
theorem c2_unmodified_save_idempotent {T Err : Type} (St : StoreModel T Err)
    (l : Link T) :
    (∀ k, l.state = .Unmodified k → Link.save St l = ⟨.ok k, l, []⟩) ∧
    (∀ k l1 evs, Link.save St l = ⟨.ok k, l1, evs⟩ →
      Link.save St l1 = ⟨.ok k, l1, []⟩ ∧ storeCallCount evs ≤ 1) := by
  obtain ⟨lv, ls⟩ := l
  constructor
  · intro k hk
    cases hk
    simp [Link.save]
  · intro k l1 evs hsave
    cases ls with
    | Unmodified k0 =>
      simp [Link.save] at hsave
      obtain ⟨rfl, rfl, rfl⟩ := hsave
      simp [Link.save, storeCallCount]
    | Modified shape =>
      cases lv with
      | none => simp [Link.save] at hsave
      | some v =>
        cases henc : St.encode v with
        | error e => simp [Link.save, StoreModel.storeRun, henc] at hsave
        | ok bytes =>
          cases hstore : St.store_bytes bytes shape with
          | error e =>
            simp [Link.save, StoreModel.storeRun, henc, hstore] at hsave
          | ok k1 =>
            simp [Link.save, StoreModel.storeRun, henc, hstore] at hsave
            obtain ⟨rfl, rfl, rfl⟩ := hsave
            simp [Link.save, storeCallCount]

/-- Witness for C2: after a first save of a modified cell, the second save
returns the same address with no backend calls, and the first save's trace
holds one store call. -/
theorem c2_witness :
    (Link.save bytesStore ⟨some [1], .Unmodified ⟨0, 0, [1]⟩⟩ =
      ⟨.ok ⟨0, 0, [1]⟩, ⟨some [1], .Unmodified ⟨0, 0, [1]⟩⟩, []⟩) ∧
    storeCallCount [Event.encodeEv [1], Event.storeBytesEv [1] none] ≤ 1 :=
  (c2_unmodified_save_idempotent bytesStore ⟨some [1], .Modified none⟩).2
    ⟨0, 0, [1]⟩ ⟨some [1], .Unmodified ⟨0, 0, [1]⟩⟩
    [Event.encodeEv [1], Event.storeBytesEv [1] none] rfl

/-- C7: for an `AutoLink` in the `Inlined` state, `edit` returns the cached
value with no backend call and the state unchanged (not advanced to
`Modified`); a subsequent `save` — even after the value was replaced by an
arbitrary `w`, possibly larger than the threshold — returns the cached
value inline with no `encode`, no size check, and no store call. -/
theorem c7_inlined_edit_sticky {T Err : Type} (St : StoreModel T Err)
    (l : AutoLink T) (v : T) (S : Nat)
    (hstate : l.state = .Inlined) (hval : l.value = some v) :
    AutoLink.edit St l = ⟨.ok v, l, []⟩ ∧
    (∀ w : T, AutoLink.save S St { l with value := some w } =
      ⟨.ok (.Value w), { l with value := some w }, []⟩) := by
  obtain ⟨lv, ls⟩ := l
  cases hstate
  cases hval
  constructor
  · simp [AutoLink.edit]
  · intro w
    simp [AutoLink.save]

/-- Witness for C7: editing an inlined 1-byte cell makes no calls; saving
after growing the value to 3 bytes under threshold 0 still returns it
inline with an empty trace. -/
theorem c7_witness :
    (AutoLink.edit bytesStore ⟨some [1], .Inlined⟩ =
      ⟨.ok [1], ⟨some [1], .Inlined⟩, []⟩) ∧
    (AutoLink.save 0 bytesStore ⟨some [9, 9, 9], .Inlined⟩ =
      ⟨.ok (.Value [9, 9, 9]), ⟨some [9, 9, 9], .Inlined⟩, []⟩) :=
  have h := c7_inlined_edit_sticky bytesStore ⟨some [1], .Inlined⟩ [1] 0 rfl rfl
  ⟨h.1, h.2 [9, 9, 9]⟩

/-- C10: if the backend call inside `Link::save`, `Link::edit`,
`Link::read`, `AutoLink::save` or `AutoLink::edit` fails, the operation
returns the error with the cell (state and cache) unchanged; in particular
a failed `save` leaves the cell `Modified` with its cached value intact. -/
theorem c10_error_atomicity {T Err : Type} (St : StoreModel T Err) (S : Nat)
    (l : Link T) (a : AutoLink T) (e : Err) :
    ((Link.save St l).res = .err e → (Link.save St l).cell = l) ∧
    ((Link.edit St l).res = .err e → (Link.edit St l).cell = l) ∧
    ((Link.read St l).res = .err e → (Link.read St l).cell = l) ∧
    ((AutoLink.save S St a).res = .err e → (AutoLink.save S St a).cell = a) ∧
    ((AutoLink.edit St a).res = .err e → (AutoLink.edit St a).cell = a) ∧
    (∀ sh, l.state = .Modified sh → (Link.save St l).res = .err e →
      (Link.save St l).cell.state = .Modified sh ∧
      (Link.save St l).cell.value = l.value) := by
  refine ⟨?_, ?_, ?_, ?_, ?_, ?_⟩
  · unfold Link.save
    split
    · simp
    · split
      · simp
      · split
        · simp
        · simp
  · unfold Link.edit
    split
    · split
      · split
        · simp
        · simp
      · simp
    · split
      · simp
      · simp
  · unfold Link.read
    split
    · simp
    · split
      · simp
      · split
        · simp
        · simp
  · unfold AutoLink.save
    split
    · simp
    · split
      · simp
      · simp
    · split
      · simp
      · split
        · simp
        · split
          · simp
          · split
            · simp
            · simp
  · unfold AutoLink.edit
    split
    · split
      · split
        · simp
        · simp
      · simp
    · split
      · simp
      · simp
  · intro sh hsh
    obtain ⟨lv, ls⟩ := l
    cases hsh
    intro herr
    cases lv with
    | none => simp [Link.save] at herr
    | some v =>
      cases henc : St.encode v with
      | error e1 => simp [Link.save, StoreModel.storeRun, henc]
      | ok bytes =>
        cases hstore : St.store_bytes bytes sh with
        | error e1 => simp [Link.save, StoreModel.storeRun, henc, hstore]
        | ok k1 => simp [Link.save, StoreModel.storeRun, henc, hstore] at herr

/-- Witness for C10: a failing `store_bytes` leaves a modified `Link`
unchanged, and a failing `load_bytes` leaves an uncached `AutoLink`
unchanged. -/
theorem c10_witness :
    ((Link.save failStore ⟨some [1], .Modified none⟩).cell =
      ⟨some [1], .Modified none⟩) ∧
    ((AutoLink.edit failStore ⟨none, .Link ⟨0, 0, [2]⟩⟩).cell =
      ⟨none, .Link ⟨0, 0, [2]⟩⟩) :=
  have h1 := c10_error_atomicity failStore 0
    (⟨some [1], .Modified none⟩ : Link (List Nat))
    (⟨none, .Link ⟨0, 0, [2]⟩⟩ : AutoLink (List Nat)) "store failed"
  have h2 := c10_error_atomicity failStore 0
    (⟨some [1], .Modified none⟩ : Link (List Nat))
    (⟨none, .Link ⟨0, 0, [2]⟩⟩ : AutoLink (List Nat)) "load failed"
  ⟨h1.1 rfl, h2.2.2.2.2.1 rfl⟩

/-- C3: a successful `Link::edit` leaves the cell `Modified` with the
returned value cached; from any `Modified` state, a successful `save`
performs the backend store (encode, then `store_bytes` with the captured
shape hint), transitions to `Unmodified(new k)`, and returns exactly the
address produced by the store — never a stale one. -/
theorem c3_dirty_tracking {T Err : Type} (St : StoreModel T Err) (l : Link T) :
    (∀ x l1 evs, Link.edit St l = ⟨.ok x, l1, evs⟩ →
      ∃ sh, l1.state = .Modified sh ∧ l1.value = some x) ∧
    (∀ sh v bytes k, l.state = .Modified sh → l.value = some v →
      St.encode v = .ok bytes → St.store_bytes bytes sh = .ok k →
      Link.save St l =
        ⟨.ok k, { l with state := .Unmodified k },
          [Event.encodeEv v, Event.storeBytesEv bytes sh]⟩) := by
  obtain ⟨lv, ls⟩ := l
  constructor
  · intro x l1 evs hedit
    cases ls with
    | Unmodified k =>
      cases lv with
      | none =>
        cases hlb : St.load_bytes k with
        | error e =>
          simp [Link.edit, StoreModel.loadRun, hlb] at hedit
        | ok bytes =>
          cases hdec : St.decode bytes with
          | error e =>
            simp [Link.edit, StoreModel.loadRun, hlb, hdec] at hedit
          | ok v0 =>
            simp [Link.edit, StoreModel.loadRun, hlb, hdec] at hedit
            obtain ⟨rfl, rfl, rfl⟩ := hedit
            exact ⟨some (CidShape.fromCid k), rfl, rfl⟩
      | some v0 =>
        simp [Link.edit] at hedit
        obtain ⟨rfl, rfl, rfl⟩ := hedit
        exact ⟨some (CidShape.fromCid k), rfl, rfl⟩
    | Modified sh0 =>
      cases lv with
      | none => simp [Link.edit] at hedit
      | some v0 =>
        simp [Link.edit] at hedit
        obtain ⟨rfl, rfl, rfl⟩ := hedit
        exact ⟨sh0, rfl, rfl⟩
  · intro sh v bytes k hstate hval henc hstore
    cases hstate
    cases hval
    simp [Link.save, StoreModel.storeRun, henc, hstore]

/-- Witness for C3: editing an uncached unmodified cell leaves it modified
with the loaded value; saving a modified cell stores it and returns the
freshly computed address. -/
theorem c3_witness :
    (∃ sh, (⟨some [7], .Modified (some ⟨3, 4⟩)⟩ : Link (List Nat)).state =
        .Modified sh ∧
      (⟨some [7], .Modified (some ⟨3, 4⟩)⟩ : Link (List Nat)).value = some [7]) ∧
    (Link.save bytesStore ⟨some [7], .Modified (some ⟨3, 4⟩)⟩ =
      ⟨.ok ⟨3, 4, [7]⟩, ⟨some [7], .Unmodified ⟨3, 4, [7]⟩⟩,
        [Event.encodeEv [7], Event.storeBytesEv [7] (some ⟨3, 4⟩)]⟩) :=
  ⟨(c3_dirty_tracking bytesStore ⟨none, .Unmodified ⟨3, 4, [7]⟩⟩).1 [7]
      ⟨some [7], .Modified (some ⟨3, 4⟩)⟩
      [Event.loadBytesEv ⟨3, 4, [7]⟩, Event.decodeEv [7]] rfl,
   (c3_dirty_tracking bytesStore ⟨some [7], .Modified (some ⟨3, 4⟩)⟩).2
      (some ⟨3, 4⟩) [7] [7] ⟨3, 4, [7]⟩ rfl rfl rfl rfl⟩

/-- C5: `edit` on an `Unmodified(k)` cell captures `k`'s shape and moves to
`Modified(Some(shape of k))`; the following `save` passes that hint to
`store_bytes`, and if the backend honors shape hints the new address has
the same (codec, hash-function) shape as `k`. -/
theorem c5_shape_hint_reuse {T Err : Type} (St : StoreModel T Err)
    (honors : ∀ (b : List Nat) (s : CidShape) (k2 : Cid),
      St.store_bytes b (some s) = .ok k2 → CidShape.fromCid k2 = s)
    (l : Link T) (k : Cid) (hstate : l.state = .Unmodified k) :
    ∀ x l1 evs, Link.edit St l = ⟨.ok x, l1, evs⟩ →
      l1.state = .Modified (some (CidShape.fromCid k)) ∧
      l1.value = some x ∧
      (∀ bytes k1, St.encode x = .ok bytes →
        St.store_bytes bytes (some (CidShape.fromCid k)) = .ok k1 →
        Link.save St l1 =
          ⟨.ok k1, { l1 with state := .Unmodified k1 },
            [Event.encodeEv x, Event.storeBytesEv bytes (some (CidShape.fromCid k))]⟩ ∧
        CidShape.fromCid k1 = CidShape.fromCid k) := by
  obtain ⟨lv, ls⟩ := l
  cases hstate
  intro x l1 evs hedit
  have hl1 : l1 = ⟨some x, .Modified (some (CidShape.fromCid k))⟩ := by
    cases lv with
    | none =>
      cases hlb : St.load_bytes k with
      | error e => simp [Link.edit, StoreModel.loadRun, hlb] at hedit
      | ok bytes =>
        cases hdec : St.decode bytes with
        | error e => simp [Link.edit, StoreModel.loadRun, hlb, hdec] at hedit
        | ok v0 =>
          simp [Link.edit, StoreModel.loadRun, hlb, hdec] at hedit
          obtain ⟨rfl, rfl, rfl⟩ := hedit
          rfl
    | some v0 =>
      simp [Link.edit] at hedit
      obtain ⟨rfl, rfl, rfl⟩ := hedit
      rfl
  subst hl1
  refine ⟨rfl, rfl, ?_⟩
  intro bytes k1 henc hstore
  exact ⟨by simp [Link.save, StoreModel.storeRun, henc, hstore],
    honors bytes (CidShape.fromCid k) k1 hstore⟩

/-- Witness for C5: editing a cached cell at address (7,8,[5]) and saving
produces an address with shape (7,8) again under the shape-honoring
concrete backend. -/
theorem c5_witness :
    ((⟨some [5], .Modified (some ⟨7, 8⟩)⟩ : Link (List Nat)).state =
      .Modified (some (CidShape.fromCid ⟨7, 8, [5]⟩)) ∧
    (⟨some [5], .Modified (some ⟨7, 8⟩)⟩ : Link (List Nat)).value = some [5] ∧
    (∀ bytes k1, bytesStore.encode [5] = .ok bytes →
      bytesStore.store_bytes bytes (some (CidShape.fromCid ⟨7, 8, [5]⟩)) = .ok k1 →
      Link.save bytesStore ⟨some [5], .Modified (some ⟨7, 8⟩)⟩ =
        ⟨.ok k1, ⟨some [5], .Unmodified k1⟩,
          [Event.encodeEv [5],
            Event.storeBytesEv bytes (some (CidShape.fromCid ⟨7, 8, [5]⟩))]⟩ ∧
      CidShape.fromCid k1 = CidShape.fromCid ⟨7, 8, [5]⟩)) :=
  c5_shape_hint_reuse bytesStore
    (by
      intro b s k2 h
      obtain ⟨c, m⟩ := s
      injection h with h2
      subst h2
      rfl)
    ⟨some [5], .Unmodified ⟨7, 8, [5]⟩⟩ ⟨7, 8, [5]⟩ rfl
    [5] ⟨some [5], .Modified (some ⟨7, 8⟩)⟩ [] rfl

/-- C6: `free` equals `save` followed by discarding the cache (same result,
same backend calls, cache cleared); for a modified cell, after `free`
returns address `k` the cell is `⟨none, Unmodified k⟩`, a `read` reloads
the same value under the round-trip hypotheses, and a further `save` still
returns `k` with no backend call; the same reload property holds for an
unmodified cell whose cache is consistent with its address. -/
theorem c6_release_reload {T Err : Type} (St : StoreModel T Err) (l : Link T) :
    ((Link.free St l).res = (Link.save St l).res ∧
     (Link.free St l).events = (Link.save St l).events) ∧
    (∀ k l1 evs, Link.save St l = ⟨.ok k, l1, evs⟩ →
      (Link.free St l).cell = { l1 with value := none }) ∧
    (∀ sh v bytes k, l.state = .Modified sh → l.value = some v →
      St.encode v = .ok bytes → St.store_bytes bytes sh = .ok k →
      St.load_bytes k = .ok bytes → St.decode bytes = .ok v →
      Link.free St l =
        ⟨.ok k, ⟨none, .Unmodified k⟩,
          [Event.encodeEv v, Event.storeBytesEv bytes sh]⟩ ∧
      Link.read St (⟨none, .Unmodified k⟩ : Link T) =
        ⟨.ok v, ⟨some v, .Unmodified k⟩,
          [Event.loadBytesEv k, Event.decodeEv bytes]⟩ ∧
      Link.save St (⟨some v, .Unmodified k⟩ : Link T) =
        ⟨.ok k, ⟨some v, .Unmodified k⟩, []⟩) ∧
    (∀ k v bytes, l.state = .Unmodified k → l.value = some v →
      St.load_bytes k = .ok bytes → St.decode bytes = .ok v →
      Link.free St l = ⟨.ok k, ⟨none, .Unmodified k⟩, []⟩ ∧
      Link.read St (⟨none, .Unmodified k⟩ : Link T) =
        ⟨.ok v, ⟨some v, .Unmodified k⟩,
          [Event.loadBytesEv k, Event.decodeEv bytes]⟩) := by
  refine ⟨?_, ?_, ?_, ?_⟩
  · simp only [Link.free]
    cases hsr : (Link.save St l).res <;> simp [hsr]
  · intro k l1 evs hsave
    simp [Link.free, hsave]
  · intro sh v bytes k hstate hval henc hstore hload hdec
    obtain ⟨lv, ls⟩ := l
    cases hstate
    cases hval
    refine ⟨?_, ?_, ?_⟩
    · simp [Link.free, Link.save, StoreModel.storeRun, henc, hstore]
    · simp [Link.read, LinkState.unwrap_unmodified, StoreModel.loadRun, hload, hdec]
    · simp [Link.save]
  · intro k v bytes hstate hval hload hdec
    obtain ⟨lv, ls⟩ := l
    cases hstate
    cases hval
    refine ⟨?_, ?_⟩
    · simp [Link.free, Link.save]
    · simp [Link.read, LinkState.unwrap_unmodified, StoreModel.loadRun, hload, hdec]

/-- Witness for C6: freeing a modified cell stores it and empties the
cache; reading afterwards reloads the same value; saving again returns the
same address with no calls. -/
theorem c6_witness :
    (Link.free bytesStore ⟨some [6], .Modified none⟩ =
      ⟨.ok ⟨0, 0, [6]⟩, ⟨none, .Unmodified ⟨0, 0, [6]⟩⟩,
        [Event.encodeEv [6], Event.storeBytesEv [6] none]⟩) ∧
    (Link.read bytesStore (⟨none, .Unmodified ⟨0, 0, [6]⟩⟩ : Link (List Nat)) =
      ⟨.ok [6], ⟨some [6], .Unmodified ⟨0, 0, [6]⟩⟩,
        [Event.loadBytesEv ⟨0, 0, [6]⟩, Event.decodeEv [6]]⟩) ∧
    (Link.save bytesStore (⟨some [6], .Unmodified ⟨0, 0, [6]⟩⟩ : Link (List Nat)) =
      ⟨.ok ⟨0, 0, [6]⟩, ⟨some [6], .Unmodified ⟨0, 0, [6]⟩⟩, []⟩) :=
  (c6_release_reload bytesStore ⟨some [6], .Modified none⟩).2.2.1
    none [6] [6] ⟨0, 0, [6]⟩ rfl rfl rfl rfl rfl rfl

/-- Helper: the decoder produces a `Link` only when stripping presence
markers leaves a newtype-wrapped byte string whose bytes parse as that
`Cid`. -/
lemma maybeLinkDecode_link_only {T : Type} (decodeT : Node → Except String T)
    (parseCid : List Nat → Except String Cid) :
    ∀ (n : Node) (k : Cid),
      maybeLinkDecode decodeT parseCid n = .ok (.Link k) →
      ∃ b, Node.stripSome n = .newtypeN (.bytesN b) ∧ parseCid b = .ok k
  | .someN inner, k, h => by
    have ih := maybeLinkDecode_link_only decodeT parseCid inner k
    simp only [maybeLinkDecode] at h
    simpa [Node.stripSome] using ih h
  | .newtypeN inner, k, h => by
    cases inner <;>
      simp only [maybeLinkDecode, deserializeBytesNode, Except.bind,
        reduceCtorEq] at h
    case bytesN b =>
      cases hp : parseCid b with
      | error e => rw [hp] at h; simp [Except.map] at h
      | ok k1 =>
        rw [hp] at h
        simp [Except.map] at h
        exact ⟨b, by simp [Node.stripSome], by rw [hp, h]⟩
  | .boolN b, k, h => by
    cases hdt : decodeT (.boolN b) <;> simp [maybeLinkDecode, hdt, Except.map] at h
  | .intN ik i, k, h => by
    cases hdt : decodeT (.intN ik i) <;> simp [maybeLinkDecode, hdt, Except.map] at h
  | .floatN fk bits, k, h => by
    cases hdt : decodeT (.floatN fk bits) <;> simp [maybeLinkDecode, hdt, Except.map] at h
  | .charN c, k, h => by
    cases hdt : decodeT (.charN c) <;> simp [maybeLinkDecode, hdt, Except.map] at h
  | .strN s, k, h => by
    cases hdt : decodeT (.strN s) <;> simp [maybeLinkDecode, hdt, Except.map] at h
  | .bytesN b, k, h => by
    cases hdt : decodeT (.bytesN b) <;> simp [maybeLinkDecode, hdt, Except.map] at h
  | .noneN, k, h => by
    cases hdt : decodeT .noneN <;> simp [maybeLinkDecode, hdt, Except.map] at h
  | .seqN items, k, h => by
    cases hdt : decodeT (.seqN items) <;> simp [maybeLinkDecode, hdt, Except.map] at h
  | .mapN pairs, k, h => by
    cases hdt : decodeT (.mapN pairs) <;> simp [maybeLinkDecode, hdt, Except.map] at h

/-- C4: the shape-ambiguous decoder decodes every primitive, sequence and
mapping shape as an inline `Value` by recursively decoding `T`; a presence
marker re-dispatches on the nested shape; the newtype wrapper is the only
shape decoded as a `Link` (its wrapped bytes parsed as a `Cid`) — in
particular an unwrapped byte string yields a `Value` while a wrapped one
yields a `Link`. -/
theorem c4_shape_disambiguation {T : Type} (decodeT : Node → Except String T)
    (parseCid : List Nat → Except String Cid) :
    (∀ b, maybeLinkDecode decodeT parseCid (.boolN b) =
      (decodeT (.boolN b)).map MaybeLink.Value) ∧
    (∀ ik i, maybeLinkDecode decodeT parseCid (.intN ik i) =
      (decodeT (.intN ik i)).map MaybeLink.Value) ∧
    (∀ fk bits, maybeLinkDecode decodeT parseCid (.floatN fk bits) =
      (decodeT (.floatN fk bits)).map MaybeLink.Value) ∧
    (∀ c, maybeLinkDecode decodeT parseCid (.charN c) =
      (decodeT (.charN c)).map MaybeLink.Value) ∧
    (∀ s, maybeLinkDecode decodeT parseCid (.strN s) =
      (decodeT (.strN s)).map MaybeLink.Value) ∧
    (∀ b, maybeLinkDecode decodeT parseCid (.bytesN b) =
      (decodeT (.bytesN b)).map MaybeLink.Value) ∧
    (maybeLinkDecode decodeT parseCid .noneN =
      (decodeT .noneN).map MaybeLink.Value) ∧
    (∀ items, maybeLinkDecode decodeT parseCid (.seqN items) =
      (decodeT (.seqN items)).map MaybeLink.Value) ∧
    (∀ pairs, maybeLinkDecode decodeT parseCid (.mapN pairs) =
      (decodeT (.mapN pairs)).map MaybeLink.Value) ∧
    (∀ inner, maybeLinkDecode decodeT parseCid (.someN inner) =
      maybeLinkDecode decodeT parseCid inner) ∧
    (∀ b, maybeLinkDecode decodeT parseCid (.newtypeN (.bytesN b)) =
      (parseCid b).map MaybeLink.Link) ∧
    (∀ n k, maybeLinkDecode decodeT parseCid n = .ok (.Link k) →
      ∃ b, Node.stripSome n = .newtypeN (.bytesN b) ∧ parseCid b = .ok k) := by
  refine ⟨fun b => rfl, fun ik i => rfl, fun fk bits => rfl, fun c => rfl,
    fun s => rfl, fun b => rfl, rfl, fun items => rfl, fun pairs => rfl,
    fun inner => rfl, fun b => rfl, maybeLinkDecode_link_only decodeT parseCid⟩

/-- Witness for C4: a byte string wrapped in the newtype marker (under one
presence marker) decodes as a link even though its bytes form a valid
inline byte string. -/
theorem c4_witness :
    ∃ b, Node.stripSome (.someN (.newtypeN (.bytesN [1, 2]))) =
        .newtypeN (.bytesN b) ∧
      (fun bs => (Except.ok ⟨0, 0, bs⟩ : Except String Cid)) b =
        .ok ⟨0, 0, [1, 2]⟩ :=
  (c4_shape_disambiguation
      (fun _ => (.ok [] : Except String (List Nat)))
      (fun bs => .ok ⟨0, 0, bs⟩)).2.2.2.2.2.2.2.2.2.2.2
    (.someN (.newtypeN (.bytesN [1, 2]))) ⟨0, 0, [1, 2]⟩ rfl

/-- C9: round trip — saving a `Link` built `from_value v` stores
`encode v` at the returned address, and `load` of that address yields `v`
under the round-trip hypotheses; an `AutoLink` built `from_value v` saves
to `Value v` when the encoding fits the threshold (and a direct-shape node
decoding to `v` decodes as `Value v`), and otherwise to `Link k`, from
which `read` recovers `v` (and the wrapped address decodes as `Link k`). -/
theorem c9_round_trip {T Err : Type} (St : StoreModel T Err) (v : T)
    (sh : Option CidShape) (bytes : List Nat) (k : Cid)
    (henc : St.encode v = .ok bytes) :
    (St.store_bytes bytes sh = .ok k → St.load_bytes k = .ok bytes →
      St.decode bytes = .ok v →
      Link.save St (Link.from_value v sh) =
        ⟨.ok k, ⟨some v, .Unmodified k⟩,
          [Event.encodeEv v, Event.storeBytesEv bytes sh]⟩ ∧
      St.loadRun k = (.ok v, [Event.loadBytesEv k, Event.decodeEv bytes])) ∧
    (∀ S, bytes.length ≤ S →
      AutoLink.save S St (AutoLink.from_value v) =
        ⟨.ok (.Value v), ⟨some v, .Inlined⟩, [Event.encodeEv v]⟩ ∧
      (∀ (decodeT : Node → Except String T)
        (parseCid : List Nat → Except String Cid) (n : Node),
        n.isDirect = true → decodeT n = .ok v →
        maybeLinkDecode decodeT parseCid n = .ok (.Value v))) ∧
    (∀ S, S < bytes.length → St.store_bytes bytes none = .ok k →
      St.load_bytes k = .ok bytes → St.decode bytes = .ok v →
      AutoLink.save S St (AutoLink.from_value v) =
        ⟨.ok (.Link k), ⟨some v, .Link k⟩,
          [Event.encodeEv v, Event.storeBytesEv bytes none]⟩ ∧
      (AutoLink.read St (AutoLink.from_cid k)).res = .ok v ∧
      (∀ (decodeT : Node → Except String T)
        (parseCid : List Nat → Except String Cid) (cb : List Nat),
        parseCid cb = .ok k →
        maybeLinkDecode decodeT parseCid (.newtypeN (.bytesN cb)) =
          .ok (.Link k))) := by
  refine ⟨?_, ?_, ?_⟩
  · intro hstore hload hdec
    constructor
    · simp [Link.save, Link.from_value, StoreModel.storeRun, henc, hstore]
    · simp [StoreModel.loadRun, hload, hdec]
  · intro S hle
    constructor
    · simp [AutoLink.save, AutoLink.from_value, henc, hle]
    · intro decodeT parseCid n hdir hdt
      cases n <;> simp_all [Node.isDirect, maybeLinkDecode, Except.map]
  · intro S hgt hstore hload hdec
    refine ⟨?_, ?_, ?_⟩
    · simp [AutoLink.save, AutoLink.from_value, henc, hstore, Nat.not_le.mpr hgt]
    · simp [AutoLink.read, AutoLink.from_cid, InlineState.unwrap_ref,
        StoreModel.loadRun, hload, hdec]
    · intro decodeT parseCid cb hp
      simp [maybeLinkDecode, deserializeBytesNode, Except.bind, hp, Except.map]

/-- Witness for C9: a 3-byte value round-trips through the concrete
backend both as a `Link` and as an out-of-line `AutoLink` with
threshold 2. -/
theorem c9_witness :
    (Link.save bytesStore (Link.from_value [1, 2, 3] none) =
      ⟨.ok ⟨0, 0, [1, 2, 3]⟩, ⟨some [1, 2, 3], .Unmodified ⟨0, 0, [1, 2, 3]⟩⟩,
        [Event.encodeEv [1, 2, 3], Event.storeBytesEv [1, 2, 3] none]⟩ ∧
     bytesStore.loadRun ⟨0, 0, [1, 2, 3]⟩ =
      (.ok [1, 2, 3],
        [Event.loadBytesEv ⟨0, 0, [1, 2, 3]⟩, Event.decodeEv [1, 2, 3]])) ∧
    ((AutoLink.read bytesStore
        (AutoLink.from_cid ⟨0, 0, [1, 2, 3]⟩ : AutoLink (List Nat))).res =
      .ok [1, 2, 3]) :=
  have h := c9_round_trip bytesStore [1, 2, 3] none [1, 2, 3]
    ⟨0, 0, [1, 2, 3]⟩ rfl
  ⟨h.1 rfl rfl rfl, (h.2.2 2 (by decide) rfl rfl rfl).2.1⟩

/-- C8: every cell reachable through the public constructors satisfies the
state/cache invariant (a `Modified` `Link`, and a `Modified` or `Inlined`
`AutoLink`, hold a cached value); every operation preserves it and, under
it, never reaches a panic branch; and a populated cache is never replaced
— `read`, `edit` and `save` keep the cached value, only `free` may drop
it. -/
theorem c8_invariant_no_panic {T Err : Type} (St : StoreModel T Err) (S : Nat)
    (k : Cid) (sh : Option CidShape) (v : T) (m : MaybeLink T)
    (l : Link T) (a : AutoLink T) :
    ((Link.new k : Link T).invariant = true ∧
     (Link.from_value v sh).invariant = true ∧
     (Link.deserializeModel k : Link T).invariant = true ∧
     (AutoLink.from_cid k : AutoLink T).invariant = true ∧
     (AutoLink.from_value v).invariant = true ∧
     (AutoLink.deserializeModel m).invariant = true) ∧
    (l.invariant = true →
      ((Link.read St l).cell.invariant = true ∧
        (Link.read St l).res.isPanic = false) ∧
      ((Link.edit St l).cell.invariant = true ∧
        (Link.edit St l).res.isPanic = false) ∧
      ((Link.save St l).cell.invariant = true ∧
        (Link.save St l).res.isPanic = false) ∧
      ((Link.free St l).cell.invariant = true ∧
        (Link.free St l).res.isPanic = false)) ∧
    (a.invariant = true →
      ((AutoLink.read St a).cell.invariant = true ∧
        (AutoLink.read St a).res.isPanic = false) ∧
      ((AutoLink.edit St a).cell.invariant = true ∧
        (AutoLink.edit St a).res.isPanic = false) ∧
      ((AutoLink.save S St a).cell.invariant = true ∧
        (AutoLink.save S St a).res.isPanic = false)) ∧
    (∀ w, l.value = some w →
      (Link.read St l).cell.value = some w ∧
      (Link.edit St l).cell.value = some w ∧
      (Link.save St l).cell.value = some w ∧
      ((Link.free St l).cell.value = some w ∨
        (Link.free St l).cell.value = none)) ∧
    (∀ w, a.value = some w →
      (AutoLink.read St a).cell.value = some w ∧
      (AutoLink.edit St a).cell.value = some w ∧
      (AutoLink.save S St a).cell.value = some w) := by
  obtain ⟨lv, ls⟩ := l
  obtain ⟨av, sa⟩ := a
  refine ⟨⟨rfl, rfl, rfl, rfl, rfl, ?_⟩, ?_, ?_, ?_, ?_⟩
  · cases m <;> rfl
  · intro hinv
    cases ls with
    | Unmodified k0 =>
      cases lv with
      | none =>
        cases hlb : St.load_bytes k0 with
        | error e =>
          simp [Link.read, Link.edit, Link.save, Link.free,
            LinkState.unwrap_unmodified, StoreModel.loadRun, hlb,
            Link.invariant, Res.isPanic]
        | ok bytes =>
          cases hdec : St.decode bytes with
          | error e =>
            simp [Link.read, Link.edit, Link.save, Link.free,
              LinkState.unwrap_unmodified, StoreModel.loadRun, hlb, hdec,
              Link.invariant, Res.isPanic]
          | ok v0 =>
            simp [Link.read, Link.edit, Link.save, Link.free,
              LinkState.unwrap_unmodified, StoreModel.loadRun, hlb, hdec,
              Link.invariant, Res.isPanic]
      | some w =>
        simp [Link.read, Link.edit, Link.save, Link.free,
          Link.invariant, Res.isPanic]
    | Modified sh0 =>
      cases lv with
      | none => simp [Link.invariant] at hinv
      | some w =>
        cases henc : St.encode w with
        | error e =>
          simp [Link.read, Link.edit, Link.save, Link.free,
            StoreModel.storeRun, henc, Link.invariant, Res.isPanic]
        | ok bytes =>
          cases hstore : St.store_bytes bytes sh0 with
          | error e =>
            simp [Link.read, Link.edit, Link.save, Link.free,
              StoreModel.storeRun, henc, hstore, Link.invariant, Res.isPanic]
          | ok k1 =>
            simp [Link.read, Link.edit, Link.save, Link.free,
              StoreModel.storeRun, henc, hstore, Link.invariant, Res.isPanic]
  · intro hinv
    cases sa with
    | Link k0 =>
      cases av with
      | none =>
        cases hlb : St.load_bytes k0 with
        | error e =>
          simp [AutoLink.read, AutoLink.edit, AutoLink.save,
            InlineState.unwrap_ref, StoreModel.loadRun, hlb,
            AutoLink.invariant, Res.isPanic]
        | ok bytes =>
          cases hdec : St.decode bytes with
          | error e =>
            simp [AutoLink.read, AutoLink.edit, AutoLink.save,
              InlineState.unwrap_ref, StoreModel.loadRun, hlb, hdec,
              AutoLink.invariant, Res.isPanic]
          | ok v0 =>
            simp [AutoLink.read, AutoLink.edit, AutoLink.save,
              InlineState.unwrap_ref, StoreModel.loadRun, hlb, hdec,
              AutoLink.invariant, Res.isPanic]
      | some w =>
        simp [AutoLink.read, AutoLink.edit, AutoLink.save,
          AutoLink.invariant, Res.isPanic]
    | Inlined =>
      cases av with
      | none => simp [AutoLink.invariant] at hinv
      | some w =>
        simp [AutoLink.read, AutoLink.edit, AutoLink.save,
          AutoLink.invariant, Res.isPanic]
    | Modified =>
      cases av with
      | none => simp [AutoLink.invariant] at hinv
      | some w =>
        cases henc : St.encode w with
        | error e =>
          simp [AutoLink.read, AutoLink.edit, AutoLink.save, henc,
            AutoLink.invariant, Res.isPanic]
        | ok bytes =>
          by_cases hle : bytes.length ≤ S
          · simp [AutoLink.read, AutoLink.edit, AutoLink.save, henc, hle,
              AutoLink.invariant, Res.isPanic]
          · cases hstore : St.store_bytes bytes none with
            | error e =>
              simp [AutoLink.read, AutoLink.edit, AutoLink.save, henc,
                hstore, hle, AutoLink.invariant, Res.isPanic]
            | ok k1 =>
              simp [AutoLink.read, AutoLink.edit, AutoLink.save, henc,
                hstore, hle, AutoLink.invariant, Res.isPanic]
  · intro w hw
    subst hw
    cases ls with
    | Unmodified k0 =>
      simp [Link.read, Link.edit, Link.save, Link.free]
    | Modified sh0 =>
      cases henc : St.encode w with
      | error e =>
        simp [Link.read, Link.edit, Link.save, Link.free,
          StoreModel.storeRun, henc]
      | ok bytes =>
        cases hstore : St.store_bytes bytes sh0 with
        | error e =>
          simp [Link.read, Link.edit, Link.save, Link.free,
            StoreModel.storeRun, henc, hstore]
        | ok k1 =>
          simp [Link.read, Link.edit, Link.save, Link.free,
            StoreModel.storeRun, henc, hstore]
  · intro w hw
    subst hw
    cases sa with
    | Link k0 =>
      simp [AutoLink.read, AutoLink.edit, AutoLink.save]
    | Inlined =>
      simp [AutoLink.read, AutoLink.edit, AutoLink.save]
    | Modified =>
      cases henc : St.encode w with
      | error e =>
        simp [AutoLink.read, AutoLink.edit, AutoLink.save, henc]
      | ok bytes =>
        by_cases hle : bytes.length ≤ S
        · simp [AutoLink.read, AutoLink.edit, AutoLink.save, henc, hle]
        · cases hstore : St.store_bytes bytes none with
          | error e =>
            simp [AutoLink.read, AutoLink.edit, AutoLink.save, henc,
              hstore, hle]
          | ok k1 =>
            simp [AutoLink.read, AutoLink.edit, AutoLink.save, henc,
              hstore, hle]

/-- Witness for C8: a freshly loaded unmodified `Link` and a modified
`AutoLink` satisfy the invariant, and their operations neither panic nor
drop the cached value. -/
theorem c8_witness :
    (((Link.read bytesStore ⟨none, .Unmodified ⟨0, 0, [3]⟩⟩).cell.invariant =
        true ∧
      (Link.read bytesStore ⟨none, .Unmodified ⟨0, 0, [3]⟩⟩).res.isPanic =
        false) ∧
     ((AutoLink.save 256 bytesStore ⟨some [3], .Modified⟩).cell.invariant =
        true ∧
      (AutoLink.save 256 bytesStore ⟨some [3], .Modified⟩).res.isPanic =
        false)) ∧
    (AutoLink.edit bytesStore ⟨some [3], .Modified⟩).cell.value = some [3] :=
  have h := c8_invariant_no_panic bytesStore 256 ⟨0, 0, [3]⟩ none [3]
    (MaybeLink.Value [3]) ⟨none, .Unmodified ⟨0, 0, [3]⟩⟩ ⟨some [3], .Modified⟩
  ⟨⟨(h.2.1 rfl).1, (h.2.2.1 rfl).2.2⟩, (h.2.2.2.2 [3] rfl).2.1⟩

end IpldExp
